import Mathlib

/-!
Shallow embedding of the AppleAPIC I/O interrupt controller
(AppleAPIC.cpp). The vector table, the redirection-entry bit layout, the
configuration operations, the dispatch path and the power-transition
operations are translated into pure Lean functions over an explicit
state. Hardware side effects (indirect redirection-entry writes, the
identification-register restore, legacy 8259 port writes) are recorded as
traces in the state; the result code of each redirection-entry write is
supplied by an environment oracle, since the spec requires that
individual table writes can fail.
-/

set_option maxRecDepth 100000

namespace AppleAPIC

/-- Result codes returned by the controller operations. -/
inductive IOReturn where
  | success
  | error
  | badArgument
  | notFound
deriving DecidableEq, Repr

/-- One 64-bit redirection table entry, kept as its low and high 32-bit
halves, exactly as the source stores it. -/
structure VectorEntry where
  l32 : Nat
  h32 : Nat
deriving DecidableEq, Repr

instance : Inhabited VectorEntry := ⟨⟨0, 0⟩⟩

/-- Modelled from the spec: bit layout of the low half of a redirection
entry (AppleAPIC.h is not part of the provided sources). The layout is
the documented physical-device encoding the spec calls bit-exact:
vector number in bits 0..7, delivery mode in bits 8..10, destination
mode in bit 11, input polarity in bit 13, trigger mode in bit 15, mask
in bit 16; destination processor ID in bits 24..31 of the high half. -/
def kRTLOVectorNumberMask : Nat := 0xFF

def kRTLODeliveryModeMask : Nat := 0x700

def kRTLODeliveryModeFixed : Nat := 0x000

def kRTLODestinationModeMask : Nat := 0x800

def kRTLODestinationModePhysical : Nat := 0x000

def kRTLOInputPolarityMask : Nat := 0x2000

def kRTLOInputPolarityHigh : Nat := 0x0000

def kRTLOInputPolarityLow : Nat := 0x2000

def kRTLOTriggerModeMask : Nat := 0x8000

def kRTLOTriggerModeEdge : Nat := 0x0000

def kRTLOTriggerModeLevel : Nat := 0x8000

def kRTLOMaskMask : Nat := 0x10000

def kRTLOMaskEnabled : Nat := 0x00000

def kRTLOMaskDisabled : Nat := 0x10000

def kRTHIDestinationShift : Nat := 24

def kRTHIDestinationMask : Nat := 0xFF000000

/-- Modelled from the spec: interrupt-source flag encoding from the
shared PIC header (PICShared.h is not part of the provided sources).
Only which branch a flag value selects matters to the claims. -/
def kInterruptTriggerModeMask : Nat := 0x01

def kInterruptTriggerModeEdge : Nat := 0x00

def kInterruptPolarityMask : Nat := 0x02

def kInterruptPolarityHigh : Nat := 0x00

/-- Modelled from the spec: legacy 8259 controller ports (Apple8259PIC.h
is not part of the provided sources); OCW1 is the mask data port, one
past the base port. -/
def kPIC1BasePort : Nat := 0x20

def kPIC2BasePort : Nat := 0xA0

def kPIC_OCW1 (basePort : Nat) : Nat := basePort + 1

/-- Complement within a 32-bit word, as the C tilde operator acts on a
UInt32 operand. -/
def compl32 (m : Nat) : Nat := 0xFFFFFFFF ^^^ m

/-- Configuration fixed at start: base vector number, destination APIC
ID, number of redirection entries, and the saved identification
register value restored on wake. -/
structure Cfg where
  vectorBase : Nat
  destinationAddress : Nat
  vectorCount : Nat
  apicIDRegister : Nat
deriving DecidableEq, Repr

/-- Mutable controller state: the in-memory vector table, whether the
table has been allocated, and the traces of hardware side effects: the
redirection-entry writes (index, entry written), the
identification-register writes, and the legacy 8259 port writes
(port, value). -/
structure St where
  vectorTable : List VectorEntry
  tableAllocated : Bool
  hwTrace : List (Nat × VectorEntry)
  idWrites : List Nat
  outbTrace : List (Nat × Nat)
deriving DecidableEq, Repr

/-- Modelled from the spec: environment oracle giving the result code of
the k-th redirection-entry write (the spec states per-vector table
writes are reported to the caller and can fail; the write-result plumbing
lives in headers not among the provided sources). -/
def Hw : Type := Nat → IOReturn

/-- Lines 303-316: writeVectorEntry(vectorNumber) writes the stored
entry for the index through to hardware under the lock and returns the
result of the write step. -/
def writeVectorEntry (hw : Hw) (st : St) (vectorNumber : Nat) : St × IOReturn :=
  let e := st.vectorTable.getD vectorNumber default
  ({ st with hwTrace := st.hwTrace ++ [(vectorNumber, e)] }, hw st.hwTrace.length)

/-- Lines 319-331: writeVectorEntry(vectorNumber, entry) writes a
caller-supplied entry without touching the stored table. -/
def writeVectorEntryImm (hw : Hw) (st : St) (vectorNumber : Nat) (entry : VectorEntry) :
    St × IOReturn :=
  ({ st with hwTrace := st.hwTrace ++ [(vectorNumber, entry)] }, hw st.hwTrace.length)

/-- Modelled from the spec: mask(index) sets the mask bit in the stored
entry and writes through (the inline definition lives in AppleAPIC.h,
not among the provided sources). -/
def disableVectorEntry (hw : Hw) (st : St) (vectorNumber : Nat) : St × IOReturn :=
  let e := st.vectorTable.getD vectorNumber default
  let st' := { st with
    vectorTable := st.vectorTable.set vectorNumber { e with l32 := e.l32 ||| kRTLOMaskDisabled } }
  writeVectorEntry hw st' vectorNumber

/-- Modelled from the spec: unmask(index) clears the mask bit in the
stored entry and writes through (the inline definition lives in
AppleAPIC.h, not among the provided sources). -/
def enableVectorEntry (hw : Hw) (st : St) (vectorNumber : Nat) : St × IOReturn :=
  let e := st.vectorTable.getD vectorNumber default
  let st' := { st with
    vectorTable := st.vectorTable.set vectorNumber { e with l32 := e.l32 &&& compl32 kRTLOMaskMask } }
  writeVectorEntry hw st' vectorNumber

/-- Lines 292-294: the default entry constructed by resetVectorTable
for one index: vector number field from vectorBase + index, delivery
mode fixed, destination mode physical, mask set, destination from the
configured destination address. -/
def resetEntry (cfg : Cfg) (vectorNumber : Nat) : VectorEntry :=
  { l32 := ((cfg.vectorBase + vectorNumber) &&& kRTLOVectorNumberMask) |||
      (kRTLODeliveryModeFixed ||| kRTLODestinationModePhysical ||| kRTLOMaskDisabled),
    h32 := (cfg.destinationAddress <<< kRTHIDestinationShift) &&& kRTHIDestinationMask }

/-- Loop body of resetVectorTable, recursing on the number of remaining
iterations with the current index carried along. -/
def resetAux (cfg : Cfg) (hw : Hw) : Nat → Nat → St × IOReturn → St × IOReturn
  | 0, _, acc => acc
  | n + 1, i, (st, _) =>
    let st' := { st with vectorTable := st.vectorTable.set i (resetEntry cfg i) }
    resetAux cfg hw n (i + 1) (writeVectorEntry hw st' i)

/-- Lines 278-300: resetVectorTable writes a masked default entry for
every index and returns the result of the last executed write. -/
def resetVectorTable (cfg : Cfg) (hw : Hw) (st : St) : St × IOReturn :=
  resetAux cfg hw cfg.vectorCount 0 (st, IOReturn.error)

/-- Lines 398-445: initVector reads the flags from the source
descriptor; if the descriptor is shorter than a UInt64 it returns
without writing, otherwise it rewrites the trigger-mode and polarity
bit fields of the stored entry and writes the entry through. -/
def initVector (hw : Hw) (st : St) (vectorNumber : Nat) (vectorDataLength : Nat)
    (vectorFlags : Nat) : St :=
  if vectorDataLength < 8 then st
  else
    let e := st.vectorTable.getD vectorNumber default
    let l := e.l32 &&& compl32 kRTLOTriggerModeMask
    let l := if vectorFlags &&& kInterruptTriggerModeMask == kInterruptTriggerModeEdge then
        l ||| kRTLOTriggerModeEdge
      else
        l ||| kRTLOTriggerModeLevel
    let l := l &&& compl32 kRTLOInputPolarityMask
    let l := if vectorFlags &&& kInterruptPolarityMask == kInterruptPolarityHigh then
        l ||| kRTLOInputPolarityHigh
      else
        l ||| kRTLOInputPolarityLow
    let st' := { st with vectorTable := st.vectorTable.set vectorNumber { e with l32 := l } }
    (writeVectorEntry hw st' vectorNumber).1

/-- Lines 611-631: setVectorPhysicalDestination validates the index and
the APIC ID, masks the vector, replaces the high half with the new
destination, writes through and returns success; out-of-range arguments
return the bad-argument code with no state change. -/
def setVectorPhysicalDestination (cfg : Cfg) (hw : Hw) (st : St) (vectorNumber : Nat)
    (apicID : Nat) : St × IOReturn :=
  if cfg.vectorCount ≤ vectorNumber ∨ 255 < apicID then
    (st, IOReturn.badArgument)
  else
    let st1 := (disableVectorEntry hw st vectorNumber).1
    let e := st1.vectorTable.getD vectorNumber default
    let e' := { e with h32 := (apicID <<< kRTHIDestinationShift) &&& kRTHIDestinationMask }
    let st2 := { st1 with vectorTable := st1.vectorTable.set vectorNumber e' }
    ((writeVectorEntry hw st2 vectorNumber).1, IOReturn.success)

/-- Masked copy of an entry, as built on lines 586-587 and 565-566. -/
def maskedEntry (e : VectorEntry) : VectorEntry :=
  { e with l32 := e.l32 ||| kRTLOMaskDisabled }

/-- Loop body of prepareForSleep: write a masked copy of each stored
entry through, leaving the stored table untouched. -/
def sleepAux (hw : Hw) : Nat → Nat → St × IOReturn → St × IOReturn
  | 0, _, acc => acc
  | n + 1, i, (st, _) =>
    let e := st.vectorTable.getD i default
    sleepAux hw n (i + 1) (writeVectorEntryImm hw st i (maskedEntry e))

/-- Lines 577-592: prepareForSleep masks all entries in hardware using
local masked copies and returns the result of the last write. -/
def prepareForSleep (cfg : Cfg) (hw : Hw) (st : St) : St × IOReturn :=
  sleepAux hw cfg.vectorCount 0 (st, IOReturn.error)

/-- Loop body of resumeFromSleep: per index, write a masked copy to
force a de-assertion edge, then write the stored entry to restore the
pre-sleep state. -/
def resumeAux (hw : Hw) : Nat → Nat → St × IOReturn → St × IOReturn
  | 0, _, acc => acc
  | n + 1, i, (st, _) =>
    let e := st.vectorTable.getD i default
    let st1 := (writeVectorEntryImm hw st i (maskedEntry e)).1
    resumeAux hw n (i + 1) (writeVectorEntry hw st1 i)

/-- Lines 542-574: resumeFromSleep masks all legacy 8259 lines (OCW1
writes of 0xFF to both PIC data ports), restores the saved
identification register, then force-masks and restores every entry. -/
def resumeFromSleep (cfg : Cfg) (hw : Hw) (st : St) : St × IOReturn :=
  let st1 := { st with outbTrace := st.outbTrace ++
    [(kPIC_OCW1 kPIC2BasePort, 0xFF), (kPIC_OCW1 kPIC1BasePort, 0xFF)] }
  let st2 := { st1 with idWrites := st1.idWrites ++ [cfg.apicIDRegister] }
  resumeAux hw cfg.vectorCount 0 (st2, IOReturn.error)

/-- Lines 595-608: prepareForDeepIdle writes an unmasked copy of the
one named entry when the table is allocated and the index is in range,
and fails with the bad-argument code otherwise. -/
def prepareForDeepIdle (cfg : Cfg) (hw : Hw) (st : St) (vectorNumber : Nat) : St × IOReturn :=
  if st.tableAllocated ∧ vectorNumber < cfg.vectorCount then
    let e := st.vectorTable.getD vectorNumber default
    writeVectorEntryImm hw st vectorNumber { e with l32 := e.l32 &&& compl32 kRTLOMaskMask }
  else
    (st, IOReturn.badArgument)

/-- Per-vector runtime flags owned by the dispatch and registration
layer, as consulted by handleInterrupt. -/
structure IOInterruptVector where
  interruptActive : Bool
  interruptDisabledSoft : Bool
  interruptDisabledHard : Bool
  interruptRegistered : Bool
deriving DecidableEq, Repr

instance : Inhabited IOInterruptVector := ⟨⟨false, false, false, false⟩⟩

/-- Outcome of one dispatch: the controller state, the per-vector flag
array, the returned code, and whether the registered handler ran. -/
structure DispatchResult where
  st : St
  vectors : List IOInterruptVector
  result : IOReturn
  handlerInvoked : Bool
deriving Repr

/-- Lines 501-539: handleInterrupt maps the system interrupt to a table
index, marks the vector active, invokes the handler when the vector is
registered and not soft-disabled (hard-masking afterwards when the
handler set the soft-disable flag), and otherwise hard-masks the vector
without invoking any handler. The handler is modelled by its effect on
the flags of the vector it runs for. -/
def handleInterrupt (cfg : Cfg) (hw : Hw) (st : St) (vectors : List IOInterruptVector)
    (handler : IOInterruptVector → IOInterruptVector) (source : Nat) : DispatchResult :=
  let vectorNumber := source - cfg.vectorBase
  let v := vectors.getD vectorNumber default
  let v := { v with interruptActive := true }
  if !v.interruptDisabledSoft && v.interruptRegistered then
    let v1 := handler v
    if v1.interruptDisabledSoft then
      let v2 := { v1 with interruptDisabledHard := true }
      let st1 := (disableVectorEntry hw st vectorNumber).1
      { st := st1,
        vectors := vectors.set vectorNumber { v2 with interruptActive := false },
        result := IOReturn.success, handlerInvoked := true }
    else
      { st := st,
        vectors := vectors.set vectorNumber { v1 with interruptActive := false },
        result := IOReturn.success, handlerInvoked := true }
  else
    let v2 := { v with interruptDisabledHard := true }
    let st1 := (disableVectorEntry hw st vectorNumber).1
    { st := st1,
      vectors := vectors.set vectorNumber { v2 with interruptActive := false },
      result := IOReturn.success, handlerInvoked := false }

/-- Mutating operations on the controller state, used to state the
preservation of the vector-number field across every configuration and
power-transition call. -/
inductive Op where
  | initVec (vectorNumber vectorDataLength vectorFlags : Nat)
  | setDest (vectorNumber apicID : Nat)
  | maskVec (vectorNumber : Nat)
  | unmaskVec (vectorNumber : Nat)
  | sleep
  | wake
  | deepIdle (vectorNumber : Nat)
deriving DecidableEq, Repr

/-- Applies one mutating operation to the state, discarding the result
code. -/
def applyOp (cfg : Cfg) (hw : Hw) (st : St) : Op → St
  | Op.initVec v len flags => initVector hw st v len flags
  | Op.setDest v id => (setVectorPhysicalDestination cfg hw st v id).1
  | Op.maskVec v => (disableVectorEntry hw st v).1
  | Op.unmaskVec v => (enableVectorEntry hw st v).1
  | Op.sleep => (prepareForSleep cfg hw st).1
  | Op.wake => (resumeFromSleep cfg hw st).1
  | Op.deepIdle v => (prepareForDeepIdle cfg hw st v).1

/-- Runs a sequence of mutating operations. -/
def runOps (cfg : Cfg) (hw : Hw) (st : St) (ops : List Op) : St :=
  ops.foldl (applyOp cfg hw) st

/-- Two entries that agree on every bit except possibly the mask bit. -/
def sameExceptMask (e f : VectorEntry) : Prop :=
  e.h32 = f.h32 ∧ e.l32 ||| kRTLOMaskMask = f.l32 ||| kRTLOMaskMask

/-- Sample oracle on which every hardware write succeeds. -/
def hwOK : Hw := fun _ => IOReturn.success

/-- Sample oracle on which exactly the first hardware write fails. -/
def hwFirstFails : Hw := fun k => if k = 0 then IOReturn.error else IOReturn.success

/-- Sample configuration: base vector 0x10, destination APIC 1, four
entries. -/
def sampleCfg : Cfg :=
  { vectorBase := 0x10, destinationAddress := 1, vectorCount := 4, apicIDRegister := 7 }

/-- Sample freshly allocated state for a given entry count. -/
def allocSt (count : Nat) : St :=
  { vectorTable := List.replicate count default, tableAllocated := true,
    hwTrace := [], idWrites := [], outbTrace := [] }

/-- Sample per-vector flags with a registered handler. -/
def regVec : IOInterruptVector :=
  { interruptActive := false, interruptDisabledSoft := false, interruptDisabledHard := false,
    interruptRegistered := true }

/-- Sample handler that requests soft-disable during its invocation. -/
def softSetHandler : IOInterruptVector → IOInterruptVector :=
  fun v => { v with interruptDisabledSoft := true }

/-- Invariant of the stored table: it has one entry per vector, and the
vector-number field of entry i holds the low byte of vectorBase + i. -/
def vecFieldInv (cfg : Cfg) (st : St) : Prop :=
  st.vectorTable.length = cfg.vectorCount ∧
  ∀ i, i < cfg.vectorCount →
    (st.vectorTable.getD i default).l32 &&& kRTLOVectorNumberMask =
      (cfg.vectorBase + i) &&& kRTLOVectorNumberMask

theorem and_or_cancel (x m y : Nat) (h : m &&& y = 0) : (x ||| m) &&& y = x &&& y := by
  apply Nat.eq_of_testBit_eq
  intro i
  have hm : (m &&& y).testBit i = false := by rw [h]; simp
  rw [Nat.testBit_and] at hm
  simp only [Nat.testBit_and, Nat.testBit_or]
  cases hx : x.testBit i <;> cases hmm : m.testBit i <;> cases hy : y.testBit i <;> simp_all

theorem and_and_absorb (x c y : Nat) (h : c &&& y = y) : (x &&& c) &&& y = x &&& y := by
  rw [Nat.and_assoc, h]

theorem or_and_self (x m : Nat) : (x ||| m) &&& m = m := by
  apply Nat.eq_of_testBit_eq
  intro i
  simp only [Nat.testBit_and, Nat.testBit_or]
  cases x.testBit i <;> cases m.testBit i <;> simp

theorem or_or_self (x m : Nat) : (x ||| m) ||| m = x ||| m := by
  rw [Nat.or_assoc, Nat.or_self]

theorem and255_eq_of_lt : ∀ x < 256, x &&& 255 = x := by decide

theorem destField_roundTrip : ∀ id < 256, ((id <<< 24) &&& 0xFF000000) >>> 24 = id := by decide

theorem and_compl32_or (x m : Nat) (hx : x < 2 ^ 32) (hm : m < 2 ^ 32) :
    (x &&& compl32 m) ||| m = x ||| m := by
  have hmask : (0xFFFFFFFF : Nat) = 2 ^ 32 - 1 := by norm_num
  apply Nat.eq_of_testBit_eq
  intro i
  simp only [Nat.testBit_or, Nat.testBit_and, compl32, Nat.testBit_xor, hmask,
    Nat.testBit_two_pow_sub_one]
  by_cases hi : i < 32
  · have hd : decide (i < 32) = true := by simp [hi]
    rw [hd]
    cases x.testBit i <;> cases m.testBit i <;> simp
  · have h2 : 2 ^ 32 ≤ 2 ^ i := Nat.pow_le_pow_right (by omega) (by omega)
    have hxi : x.testBit i = false := Nat.testBit_lt_two_pow (Nat.lt_of_lt_of_le hx h2)
    have hmi : m.testBit i = false := Nat.testBit_lt_two_pow (Nat.lt_of_lt_of_le hm h2)
    simp [hxi, hmi, hi]

theorem getD_set_eq {α : Type _} (l : List α) (i : Nat) (a d : α) (h : i < l.length) :
    (l.set i a).getD i d = a := by
  simp [List.getD_eq_getElem?_getD, List.getElem?_set_self, h]

theorem getD_set_ne {α : Type _} (l : List α) (i j : Nat) (a d : α) (h : i ≠ j) :
    (l.set i a).getD j d = l.getD j d := by
  simp [List.getD_eq_getElem?_getD, List.getElem?_set_ne h]

theorem getD_of_length_le {α : Type _} (l : List α) (i : Nat) (d : α) (h : l.length ≤ i) :
    l.getD i d = d := by
  simp [List.getD_eq_getElem?_getD, List.getElem?_eq_none h]

theorem getD_mem {α : Type _} (l : List α) (i : Nat) (d : α) (h : i < l.length) :
    l.getD i d ∈ l := by
  rw [List.getD_eq_getElem?_getD, List.getElem?_eq_getElem h]
  exact List.getElem_mem h

theorem sleepAux_spec (hw : Hw) (n : Nat) : ∀ (i : Nat) (st : St) (r : IOReturn),
    sleepAux hw n i (st, r) =
      ({ st with hwTrace := st.hwTrace ++
          (List.range' i n).map fun j => (j, maskedEntry (st.vectorTable.getD j default)) },
        if n = 0 then r else hw (st.hwTrace.length + n - 1)) := by
  induction n with
  | zero => intro i st r; simp [sleepAux, List.range']
  | succ n ih =>
    intro i st r
    have hstep : sleepAux hw (n + 1) i (st, r) =
        sleepAux hw n (i + 1)
          ({ st with hwTrace := st.hwTrace ++
            [(i, maskedEntry (st.vectorTable.getD i default))] },
            hw st.hwTrace.length) := rfl
    rw [hstep, ih]
    simp only [Prod.mk.injEq, List.range'_succ, List.map_cons]
    constructor
    · simp [List.append_assoc]
    · by_cases hn : n = 0
      · simp [hn]
      · rw [if_neg hn, if_neg (by omega)]
        simp only [List.length_append, List.length_cons, List.length_nil]
        congr 1
        omega

theorem resumeAux_spec (hw : Hw) (n : Nat) : ∀ (i : Nat) (st : St) (r : IOReturn),
    resumeAux hw n i (st, r) =
      ({ st with hwTrace := st.hwTrace ++
          ((List.range' i n).map fun j =>
            [(j, maskedEntry (st.vectorTable.getD j default)),
              (j, st.vectorTable.getD j default)]).flatten },
        if n = 0 then r else hw (st.hwTrace.length + 2 * n - 1)) := by
  induction n with
  | zero => intro i st r; simp [resumeAux, List.range']
  | succ n ih =>
    intro i st r
    have hstep : resumeAux hw (n + 1) i (st, r) =
        resumeAux hw n (i + 1)
          ({ st with hwTrace := (st.hwTrace ++
            [(i, maskedEntry (st.vectorTable.getD i default))]) ++
            [(i, st.vectorTable.getD i default)] },
            hw (st.hwTrace ++
              [(i, maskedEntry (st.vectorTable.getD i default))]).length) := rfl
    rw [hstep, ih]
    simp only [Prod.mk.injEq, List.range'_succ, List.map_cons, List.flatten_cons]
    constructor
    · simp [List.append_assoc]
    · by_cases hn : n = 0
      · rw [if_pos hn, if_neg (by omega)]
        simp only [List.length_append, List.length_cons, List.length_nil, hn]
        congr 1
      · rw [if_neg hn, if_neg (by omega)]
        simp only [List.length_append, List.length_cons, List.length_nil]
        congr 1
        omega

theorem resetAux_length (cfg : Cfg) (hw : Hw) (n : Nat) : ∀ (i : Nat) (st : St) (r : IOReturn),
    ((resetAux cfg hw n i (st, r)).1).vectorTable.length = st.vectorTable.length := by
  induction n with
  | zero => intro i st r; rfl
  | succ n ih =>
    intro i st r
    have hstep : resetAux cfg hw (n + 1) i (st, r) =
        resetAux cfg hw n (i + 1)
          ({ st with
            vectorTable := st.vectorTable.set i (resetEntry cfg i),
            hwTrace := st.hwTrace ++
              [(i, (st.vectorTable.set i (resetEntry cfg i)).getD i default)] },
            hw st.hwTrace.length) := rfl
    rw [hstep, ih]
    simp [List.length_set]

theorem resetAux_getD (cfg : Cfg) (hw : Hw) (n : Nat) :
    ∀ (i : Nat) (st : St) (r : IOReturn) (j : Nat),
    (resetAux cfg hw n i (st, r)).1.vectorTable.getD j default =
      (if i ≤ j ∧ j < i + n ∧ j < st.vectorTable.length then resetEntry cfg j
        else st.vectorTable.getD j default) := by
  induction n with
  | zero =>
    intro i st r j
    rw [if_neg (by omega)]
    rfl
  | succ n ih =>
    intro i st r j
    have hstep : resetAux cfg hw (n + 1) i (st, r) =
        resetAux cfg hw n (i + 1)
          ({ st with
            vectorTable := st.vectorTable.set i (resetEntry cfg i),
            hwTrace := st.hwTrace ++
              [(i, (st.vectorTable.set i (resetEntry cfg i)).getD i default)] },
            hw st.hwTrace.length) := rfl
    rw [hstep, ih]
    simp only [List.length_set]
    by_cases hji : j = i
    · subst hji
      by_cases hjl : j < st.vectorTable.length
      · rw [if_neg (by omega), if_pos (by omega)]
        exact getD_set_eq _ _ _ _ hjl
      · rw [if_neg (by omega), if_neg (by omega)]
        rw [List.set_eq_of_length_le (by omega)]
    · rw [getD_set_ne _ _ _ _ _ (fun h => hji h.symm)]
      by_cases hj : i + 1 ≤ j ∧ j < i + 1 + n ∧ j < st.vectorTable.length
      · rw [if_pos hj, if_pos (by omega)]
      · rw [if_neg hj, if_neg (by omega)]

theorem resetAux_trace (cfg : Cfg) (hw : Hw) (n : Nat) : ∀ (i : Nat) (st : St) (r : IOReturn),
    i + n ≤ st.vectorTable.length →
    (resetAux cfg hw n i (st, r)).1.hwTrace =
      st.hwTrace ++ (List.range' i n).map fun j => (j, resetEntry cfg j) := by
  induction n with
  | zero => intro i st r _; simp [resetAux, List.range']
  | succ n ih =>
    intro i st r hle
    have hstep : resetAux cfg hw (n + 1) i (st, r) =
        resetAux cfg hw n (i + 1)
          ({ st with
            vectorTable := st.vectorTable.set i (resetEntry cfg i),
            hwTrace := st.hwTrace ++
              [(i, (st.vectorTable.set i (resetEntry cfg i)).getD i default)] },
            hw st.hwTrace.length) := rfl
    rw [hstep, ih _ _ _ (by simp [List.length_set]; omega)]
    rw [getD_set_eq _ _ _ _ (by omega)]
    simp [List.range'_succ, List.append_assoc]

theorem prepareForSleep_table (cfg : Cfg) (hw : Hw) (st : St) :
    (prepareForSleep cfg hw st).1.vectorTable = st.vectorTable := by
  rw [prepareForSleep, sleepAux_spec]

theorem resumeFromSleep_table (cfg : Cfg) (hw : Hw) (st : St) :
    (resumeFromSleep cfg hw st).1.vectorTable = st.vectorTable := by
  rw [resumeFromSleep]
  rw [resumeAux_spec]

theorem prepareForDeepIdle_table (cfg : Cfg) (hw : Hw) (st : St) (v : Nat) :
    (prepareForDeepIdle cfg hw st v).1.vectorTable = st.vectorTable := by
  unfold prepareForDeepIdle
  split <;> rfl

theorem vecFieldInv_table_eq (cfg : Cfg) (st st' : St) (h : st'.vectorTable = st.vectorTable)
    (hinv : vecFieldInv cfg st) : vecFieldInv cfg st' := by
  unfold vecFieldInv at hinv ⊢
  rw [h]
  exact hinv

theorem vecFieldInv_write (cfg : Cfg) (hw : Hw) (st : St) (v : Nat)
    (h : vecFieldInv cfg st) : vecFieldInv cfg (writeVectorEntry hw st v).1 := h

theorem vecFieldInv_set (cfg : Cfg) (st : St) (v : Nat) (e : VectorEntry)
    (hinv : vecFieldInv cfg st)
    (he : e.l32 &&& kRTLOVectorNumberMask =
      (st.vectorTable.getD v default).l32 &&& kRTLOVectorNumberMask) :
    vecFieldInv cfg { st with vectorTable := st.vectorTable.set v e } := by
  obtain ⟨hlen, hf⟩ := hinv
  refine ⟨by simp [List.length_set, hlen], ?_⟩
  intro i hi
  by_cases hvi : v = i
  · subst hvi
    by_cases hvl : v < st.vectorTable.length
    · rw [getD_set_eq _ _ _ _ hvl, he]
      exact hf v hi
    · rw [List.set_eq_of_length_le (by omega)]
      exact hf v hi
  · rw [getD_set_ne _ _ _ _ _ hvi]
    exact hf i hi

theorem l32_pipeline_preserves (x t1 t2 : Nat)
    (ht1 : t1 &&& kRTLOVectorNumberMask = 0) (ht2 : t2 &&& kRTLOVectorNumberMask = 0) :
    ((((x &&& compl32 kRTLOTriggerModeMask) ||| t1) &&& compl32 kRTLOInputPolarityMask) ||| t2)
      &&& kRTLOVectorNumberMask = x &&& kRTLOVectorNumberMask := by
  rw [and_or_cancel _ _ _ ht2, and_and_absorb _ _ _ (by decide),
    and_or_cancel _ _ _ ht1, and_and_absorb _ _ _ (by decide)]

theorem vecFieldInv_applyOp (cfg : Cfg) (hw : Hw) (st : St) (op : Op)
    (h : vecFieldInv cfg st) : vecFieldInv cfg (applyOp cfg hw st op) := by
  cases op with
  | initVec v len flags =>
    show vecFieldInv cfg (initVector hw st v len flags)
    unfold initVector
    by_cases hl : len < 8
    · rw [if_pos hl]; exact h
    · rw [if_neg hl]
      by_cases h1 : (flags &&& kInterruptTriggerModeMask == kInterruptTriggerModeEdge) = true <;>
        by_cases h2 : (flags &&& kInterruptPolarityMask == kInterruptPolarityHigh) = true <;>
          simp only [h1, h2, if_true, if_false, Bool.false_eq_true, ite_true, ite_false] <;>
            (apply vecFieldInv_write
             apply vecFieldInv_set _ _ _ _ h
             apply l32_pipeline_preserves <;> decide)
  | setDest v id =>
    show vecFieldInv cfg (setVectorPhysicalDestination cfg hw st v id).1
    unfold setVectorPhysicalDestination
    by_cases hc : cfg.vectorCount ≤ v ∨ 255 < id
    · rw [if_pos hc]; exact h
    · rw [if_neg hc]
      have h1 : vecFieldInv cfg (disableVectorEntry hw st v).1 := by
        unfold disableVectorEntry
        refine vecFieldInv_write cfg hw _ v ?_
        exact vecFieldInv_set _ _ _ _ h (and_or_cancel _ _ _ (by decide))
      refine vecFieldInv_write cfg hw _ v ?_
      exact vecFieldInv_set _ _ _ _ h1 rfl
  | maskVec v =>
    show vecFieldInv cfg (disableVectorEntry hw st v).1
    unfold disableVectorEntry
    apply vecFieldInv_write
    apply vecFieldInv_set _ _ _ _ h
    exact and_or_cancel _ _ _ (by decide)
  | unmaskVec v =>
    show vecFieldInv cfg (enableVectorEntry hw st v).1
    unfold enableVectorEntry
    apply vecFieldInv_write
    apply vecFieldInv_set _ _ _ _ h
    exact and_and_absorb _ _ _ (by decide)
  | sleep => exact vecFieldInv_table_eq cfg st _ (prepareForSleep_table cfg hw st) h
  | wake => exact vecFieldInv_table_eq cfg st _ (resumeFromSleep_table cfg hw st) h
  | deepIdle v => exact vecFieldInv_table_eq cfg st _ (prepareForDeepIdle_table cfg hw st v) h

theorem vecFieldInv_runOps (cfg : Cfg) (hw : Hw) (ops : List Op) :
    ∀ st, vecFieldInv cfg st → vecFieldInv cfg (runOps cfg hw st ops) := by
  induction ops with
  | nil => intro st h; exact h
  | cons op ops ih => intro st h; exact ih _ (vecFieldInv_applyOp cfg hw st op h)

theorem resetAux_result (cfg : Cfg) (hw : Hw) (n : Nat) : ∀ (i : Nat) (st : St) (r : IOReturn),
    0 < n → (resetAux cfg hw n i (st, r)).2 = hw (st.hwTrace.length + n - 1) := by
  induction n with
  | zero => intro i st r h; omega
  | succ n ih =>
    intro i st r _
    have hstep : resetAux cfg hw (n + 1) i (st, r) =
        resetAux cfg hw n (i + 1)
          ({ st with
            vectorTable := st.vectorTable.set i (resetEntry cfg i),
            hwTrace := st.hwTrace ++
              [(i, (st.vectorTable.set i (resetEntry cfg i)).getD i default)] },
            hw st.hwTrace.length) := rfl
    rw [hstep]
    by_cases hn : n = 0
    · subst hn
      simp [resetAux]
    · rw [ih _ _ _ (by omega)]
      simp only [List.length_append, List.length_cons, List.length_nil]
      congr 1
      omega

/-- C1: after resetVectorTable, the vector-number field of stored entry i
equals vectorBase + i, and every sequence of mutating operations
(initVector, setVectorPhysicalDestination, mask and unmask, and the
power-transition operations) preserves this equality, since none of them
modifies the vector-number bit field of the low word. -/
theorem C1_vector_field_invariant (cfg : Cfg) (hw : Hw) (st : St) (ops : List Op) (i : Nat)
    (hlen : st.vectorTable.length = cfg.vectorCount) (hi : i < cfg.vectorCount)
    (hb : cfg.vectorBase + i < 256) :
    ((runOps cfg hw (resetVectorTable cfg hw st).1 ops).vectorTable.getD i default).l32 &&&
      kRTLOVectorNumberMask = cfg.vectorBase + i := by
  have h0 : vecFieldInv cfg (resetVectorTable cfg hw st).1 := by
    constructor
    · rw [resetVectorTable, resetAux_length, hlen]
    · intro j hj
      rw [resetVectorTable, resetAux_getD, if_pos (by omega)]
      simp only [resetEntry]
      rw [and_or_cancel _ _ _ (by decide), and_and_absorb _ _ _ (by decide)]
  have h2 := vecFieldInv_runOps cfg hw ops _ h0
  rw [h2.2 i hi]
  exact and255_eq_of_lt _ hb

/-- Witness for C1 at a concrete configuration, state, operation list and
index. -/
theorem C1_vector_field_invariant_witness :
    (allocSt 4).vectorTable.length = sampleCfg.vectorCount ∧
    1 < sampleCfg.vectorCount ∧
    sampleCfg.vectorBase + 1 < 256 ∧
    ((runOps sampleCfg hwOK (resetVectorTable sampleCfg hwOK (allocSt 4)).1
      [Op.initVec 1 8 3, Op.setDest 1 5, Op.maskVec 0, Op.unmaskVec 0, Op.sleep, Op.wake,
        Op.deepIdle 2]).vectorTable.getD 1 default).l32 &&& kRTLOVectorNumberMask =
      sampleCfg.vectorBase + 1 :=
  ⟨by decide, by decide, by decide,
    C1_vector_field_invariant sampleCfg hwOK (allocSt 4)
      [Op.initVec 1 8 3, Op.setDest 1 5, Op.maskVec 0, Op.unmaskVec 0, Op.sleep, Op.wake,
        Op.deepIdle 2] 1 (by decide) (by decide) (by decide)⟩

/-- C2: after resetVectorTable, stored entry i decodes to vector-number
field vectorBase + i, mask bit set (interrupt disabled), delivery mode
fixed, and destination mode physical. -/
theorem C2_reset_defaults (cfg : Cfg) (hw : Hw) (st : St)
    (hlen : st.vectorTable.length = cfg.vectorCount) (i : Nat) (hi : i < cfg.vectorCount)
    (hb : cfg.vectorBase + i < 256) :
    ((resetVectorTable cfg hw st).1.vectorTable.getD i default).l32 &&& kRTLOVectorNumberMask =
      cfg.vectorBase + i ∧
    ((resetVectorTable cfg hw st).1.vectorTable.getD i default).l32 &&& kRTLOMaskMask =
      kRTLOMaskDisabled ∧
    ((resetVectorTable cfg hw st).1.vectorTable.getD i default).l32 &&& kRTLODeliveryModeMask =
      kRTLODeliveryModeFixed ∧
    ((resetVectorTable cfg hw st).1.vectorTable.getD i default).l32 &&& kRTLODestinationModeMask =
      kRTLODestinationModePhysical := by
  have hg : (resetVectorTable cfg hw st).1.vectorTable.getD i default = resetEntry cfg i := by
    rw [resetVectorTable, resetAux_getD, if_pos (by omega)]
  rw [hg]
  simp only [resetEntry]
  refine ⟨?_, ?_, ?_, ?_⟩
  · rw [and_or_cancel _ _ _ (by decide), and_and_absorb _ _ _ (by decide)]
    exact and255_eq_of_lt _ hb
  · rw [(by decide :
      kRTLODeliveryModeFixed ||| kRTLODestinationModePhysical ||| kRTLOMaskDisabled =
        kRTLOMaskMask)]
    rw [or_and_self]
    decide
  · rw [and_or_cancel _ _ _ (by decide), Nat.and_assoc,
      (by decide : kRTLOVectorNumberMask &&& kRTLODeliveryModeMask = 0), Nat.and_zero]
    decide
  · rw [and_or_cancel _ _ _ (by decide), Nat.and_assoc,
      (by decide : kRTLOVectorNumberMask &&& kRTLODestinationModeMask = 0), Nat.and_zero]
    decide

/-- Witness for C2 at a concrete configuration, state and index. -/
theorem C2_reset_defaults_witness :
    (allocSt 4).vectorTable.length = sampleCfg.vectorCount ∧
    2 < sampleCfg.vectorCount ∧
    sampleCfg.vectorBase + 2 < 256 ∧
    (((resetVectorTable sampleCfg hwOK (allocSt 4)).1.vectorTable.getD 2 default).l32 &&&
        kRTLOVectorNumberMask = sampleCfg.vectorBase + 2 ∧
      ((resetVectorTable sampleCfg hwOK (allocSt 4)).1.vectorTable.getD 2 default).l32 &&&
        kRTLOMaskMask = kRTLOMaskDisabled ∧
      ((resetVectorTable sampleCfg hwOK (allocSt 4)).1.vectorTable.getD 2 default).l32 &&&
        kRTLODeliveryModeMask = kRTLODeliveryModeFixed ∧
      ((resetVectorTable sampleCfg hwOK (allocSt 4)).1.vectorTable.getD 2 default).l32 &&&
        kRTLODestinationModeMask = kRTLODestinationModePhysical) :=
  ⟨by decide, by decide, by decide,
    C2_reset_defaults sampleCfg hwOK (allocSt 4) (by decide) 2 (by decide) (by decide)⟩

/-- C3: prepareForSleep followed by resumeFromSleep leaves every stored
vector entry bitwise equal to its pre-sleep value; neither operation
modifies the stored table, whatever the starting table state and the
write results. -/
theorem C3_sleep_wake_preserves_table (cfg : Cfg) (hwS hwW : Hw) (st : St) :
    (resumeFromSleep cfg hwW (prepareForSleep cfg hwS st).1).1.vectorTable = st.vectorTable := by
  rw [resumeFromSleep_table, prepareForSleep_table]

/-- C4 counterexample: on a concrete state with an empty port-write
trace, prepareForSleep returns success yet issues no legacy 8259 port
write at all, so the claimed legacy masking does not complete before
prepareForSleep returns. -/
theorem C4_counterexample :
    (prepareForSleep sampleCfg hwOK (allocSt 4)).1.outbTrace = [] ∧
    (prepareForSleep sampleCfg hwOK (allocSt 4)).2 = IOReturn.success := by
  decide

/-- C4 (amended): prepareForSleep masks every one of this controller's
vectors, issuing one masked-copy hardware write per index, but performs
no legacy 8259 write; the legacy lines are instead masked by
resumeFromSleep, which issues the two OCW1 all-masked port writes. -/
theorem C4_sleep_masks_vectors_not_legacy (cfg : Cfg) (hw : Hw) (st : St) :
    (prepareForSleep cfg hw st).1.outbTrace = st.outbTrace ∧
    (prepareForSleep cfg hw st).1.hwTrace = st.hwTrace ++
      (List.range cfg.vectorCount).map
        (fun j => (j, maskedEntry (st.vectorTable.getD j default))) ∧
    (resumeFromSleep cfg hw st).1.outbTrace = st.outbTrace ++
      [(kPIC_OCW1 kPIC2BasePort, 0xFF), (kPIC_OCW1 kPIC1BasePort, 0xFF)] := by
  refine ⟨?_, ?_, ?_⟩
  · rw [prepareForSleep, sleepAux_spec]
  · rw [prepareForSleep, sleepAux_spec, List.range_eq_range']
  · rw [resumeFromSleep, resumeAux_spec]

/-- C5: when the vector is soft-disabled or unregistered at the moment
handleInterrupt runs for it, the hard-disable flag becomes true, the
hardware mask write for that vector is issued, and no handler is
invoked. -/
theorem C5_dispatch_suppresses (cfg : Cfg) (hw : Hw) (st : St)
    (vectors : List IOInterruptVector) (handler : IOInterruptVector → IOInterruptVector)
    (source : Nat)
    (hvlen : source - cfg.vectorBase < vectors.length)
    (htlen : source - cfg.vectorBase < st.vectorTable.length)
    (hcond : (vectors.getD (source - cfg.vectorBase) default).interruptDisabledSoft = true ∨
      (vectors.getD (source - cfg.vectorBase) default).interruptRegistered = false) :
    (handleInterrupt cfg hw st vectors handler source).handlerInvoked = false ∧
    ((handleInterrupt cfg hw st vectors handler source).vectors.getD
      (source - cfg.vectorBase) default).interruptDisabledHard = true ∧
    (handleInterrupt cfg hw st vectors handler source).st.hwTrace = st.hwTrace ++
      [(source - cfg.vectorBase,
        maskedEntry (st.vectorTable.getD (source - cfg.vectorBase) default))] ∧
    (maskedEntry (st.vectorTable.getD (source - cfg.vectorBase) default)).l32 &&&
      kRTLOMaskMask = kRTLOMaskMask := by
  have hEq : handleInterrupt cfg hw st vectors handler source =
      { st := (disableVectorEntry hw st (source - cfg.vectorBase)).1,
        vectors := vectors.set (source - cfg.vectorBase)
          { vectors.getD (source - cfg.vectorBase) default with
              interruptActive := false, interruptDisabledHard := true },
        result := IOReturn.success, handlerInvoked := false } := by
    have hc0 : (!(vectors.getD (source - cfg.vectorBase) default).interruptDisabledSoft &&
        (vectors.getD (source - cfg.vectorBase) default).interruptRegistered) = false := by
      rcases hcond with h1 | h1
      · simp only [h1, Bool.not_true, Bool.false_and]
      · simp only [h1, Bool.and_false]
    unfold handleInterrupt
    dsimp only
    rw [hc0, if_neg (by decide : ¬(false = true))]
  rw [hEq]
  refine ⟨rfl, ?_, ?_, ?_⟩
  · rw [getD_set_eq _ _ _ _ hvlen]
  · show st.hwTrace ++
      [(source - cfg.vectorBase,
        (st.vectorTable.set (source - cfg.vectorBase)
          (maskedEntry (st.vectorTable.getD (source - cfg.vectorBase) default))).getD
          (source - cfg.vectorBase) default)] = _
    rw [getD_set_eq _ _ _ _ htlen]
  · exact or_and_self _ _

/-- Witness for C5 at a concrete state with an unregistered vector. -/
theorem C5_dispatch_suppresses_witness :
    0x11 - sampleCfg.vectorBase < (List.replicate 4 (default : IOInterruptVector)).length ∧
    0x11 - sampleCfg.vectorBase < (allocSt 4).vectorTable.length ∧
    (((List.replicate 4 (default : IOInterruptVector)).getD
        (0x11 - sampleCfg.vectorBase) default).interruptDisabledSoft = true ∨
      ((List.replicate 4 (default : IOInterruptVector)).getD
        (0x11 - sampleCfg.vectorBase) default).interruptRegistered = false) ∧
    ((handleInterrupt sampleCfg hwOK (allocSt 4) (List.replicate 4 default) id
        0x11).handlerInvoked = false ∧
      ((handleInterrupt sampleCfg hwOK (allocSt 4) (List.replicate 4 default) id
          0x11).vectors.getD (0x11 - sampleCfg.vectorBase) default).interruptDisabledHard =
        true ∧
      (handleInterrupt sampleCfg hwOK (allocSt 4) (List.replicate 4 default) id
          0x11).st.hwTrace = (allocSt 4).hwTrace ++
        [(0x11 - sampleCfg.vectorBase,
          maskedEntry ((allocSt 4).vectorTable.getD (0x11 - sampleCfg.vectorBase) default))] ∧
      (maskedEntry ((allocSt 4).vectorTable.getD
          (0x11 - sampleCfg.vectorBase) default)).l32 &&& kRTLOMaskMask = kRTLOMaskMask) :=
  ⟨by decide, by decide, by decide,
    C5_dispatch_suppresses sampleCfg hwOK (allocSt 4) (List.replicate 4 default) id 0x11
      (by decide) (by decide) (by decide)⟩

/-- C6: when the handler sets the soft-disable flag during its
invocation, the hard-disable flag of that vector is true and the
hardware mask write has been issued by the time handleInterrupt
returns. -/
theorem C6_handler_soft_disable (cfg : Cfg) (hw : Hw) (st : St)
    (vectors : List IOInterruptVector) (handler : IOInterruptVector → IOInterruptVector)
    (source : Nat)
    (hvlen : source - cfg.vectorBase < vectors.length)
    (htlen : source - cfg.vectorBase < st.vectorTable.length)
    (hsoft : (vectors.getD (source - cfg.vectorBase) default).interruptDisabledSoft = false)
    (hreg : (vectors.getD (source - cfg.vectorBase) default).interruptRegistered = true)
    (hh : (handler { vectors.getD (source - cfg.vectorBase) default with
        interruptActive := true }).interruptDisabledSoft = true) :
    (handleInterrupt cfg hw st vectors handler source).handlerInvoked = true ∧
    ((handleInterrupt cfg hw st vectors handler source).vectors.getD
      (source - cfg.vectorBase) default).interruptDisabledHard = true ∧
    (handleInterrupt cfg hw st vectors handler source).st.hwTrace = st.hwTrace ++
      [(source - cfg.vectorBase,
        maskedEntry (st.vectorTable.getD (source - cfg.vectorBase) default))] ∧
    (maskedEntry (st.vectorTable.getD (source - cfg.vectorBase) default)).l32 &&&
      kRTLOMaskMask = kRTLOMaskMask := by
  have hEq : handleInterrupt cfg hw st vectors handler source =
      { st := (disableVectorEntry hw st (source - cfg.vectorBase)).1,
        vectors := vectors.set (source - cfg.vectorBase)
          { handler { vectors.getD (source - cfg.vectorBase) default with
              interruptActive := true } with
            interruptDisabledHard := true, interruptActive := false },
        result := IOReturn.success, handlerInvoked := true } := by
    have hc1 : (!(vectors.getD (source - cfg.vectorBase) default).interruptDisabledSoft &&
        (vectors.getD (source - cfg.vectorBase) default).interruptRegistered) = true := by
      simp only [hsoft, hreg, Bool.not_false, Bool.true_and]
    have hh2 : (handler (IOInterruptVector.mk true
        (vectors.getD (source - cfg.vectorBase) default).interruptDisabledSoft
        (vectors.getD (source - cfg.vectorBase) default).interruptDisabledHard
        (vectors.getD (source - cfg.vectorBase) default).interruptRegistered
        )).interruptDisabledSoft = true := hh
    unfold handleInterrupt
    dsimp only
    rw [hc1, if_pos (by rfl : true = true), if_pos hh2]
  rw [hEq]
  refine ⟨rfl, ?_, ?_, ?_⟩
  · rw [getD_set_eq _ _ _ _ hvlen]
  · show st.hwTrace ++
      [(source - cfg.vectorBase,
        (st.vectorTable.set (source - cfg.vectorBase)
          (maskedEntry (st.vectorTable.getD (source - cfg.vectorBase) default))).getD
          (source - cfg.vectorBase) default)] = _
    rw [getD_set_eq _ _ _ _ htlen]
  · exact or_and_self _ _

/-- Witness for C6 at a concrete state whose handler requests
soft-disable. -/
theorem C6_handler_soft_disable_witness :
    0x12 - sampleCfg.vectorBase < (List.replicate 4 regVec).length ∧
    0x12 - sampleCfg.vectorBase < (allocSt 4).vectorTable.length ∧
    ((List.replicate 4 regVec).getD (0x12 - sampleCfg.vectorBase)
        default).interruptDisabledSoft = false ∧
    ((List.replicate 4 regVec).getD (0x12 - sampleCfg.vectorBase)
        default).interruptRegistered = true ∧
    (softSetHandler { (List.replicate 4 regVec).getD (0x12 - sampleCfg.vectorBase) default with
        interruptActive := true }).interruptDisabledSoft = true ∧
    ((handleInterrupt sampleCfg hwOK (allocSt 4) (List.replicate 4 regVec) softSetHandler
        0x12).handlerInvoked = true ∧
      ((handleInterrupt sampleCfg hwOK (allocSt 4) (List.replicate 4 regVec) softSetHandler
          0x12).vectors.getD (0x12 - sampleCfg.vectorBase) default).interruptDisabledHard =
        true ∧
      (handleInterrupt sampleCfg hwOK (allocSt 4) (List.replicate 4 regVec) softSetHandler
          0x12).st.hwTrace = (allocSt 4).hwTrace ++
        [(0x12 - sampleCfg.vectorBase,
          maskedEntry ((allocSt 4).vectorTable.getD (0x12 - sampleCfg.vectorBase) default))] ∧
      (maskedEntry ((allocSt 4).vectorTable.getD
          (0x12 - sampleCfg.vectorBase) default)).l32 &&& kRTLOMaskMask = kRTLOMaskMask) :=
  ⟨by decide, by decide, by decide, by decide, by decide,
    C6_handler_soft_disable sampleCfg hwOK (allocSt 4) (List.replicate 4 regVec)
      softSetHandler 0x12 (by decide) (by decide) (by decide) (by decide) (by decide)⟩

/-- C7: for a valid index and an APIC ID of at most 255,
setVectorPhysicalDestination returns success, leaves the destination
field of the entry equal to the new ID, masks the vector before the
destination is updated (the first hardware write carries the old
destination and the mask bit; every write the call issues is masked),
and leaves the entry masked. -/
theorem C7_setDestination_ok (cfg : Cfg) (hw : Hw) (st : St) (v id : Nat)
    (hv : v < cfg.vectorCount) (hid : id ≤ 255)
    (hlen : st.vectorTable.length = cfg.vectorCount) :
    (setVectorPhysicalDestination cfg hw st v id).2 = IOReturn.success ∧
    (setVectorPhysicalDestination cfg hw st v id).1.vectorTable.getD v default =
      { l32 := (st.vectorTable.getD v default).l32 ||| kRTLOMaskDisabled,
        h32 := (id <<< kRTHIDestinationShift) &&& kRTHIDestinationMask } ∧
    (((setVectorPhysicalDestination cfg hw st v id).1.vectorTable.getD v default).h32 &&&
      kRTHIDestinationMask) >>> kRTHIDestinationShift = id ∧
    ((setVectorPhysicalDestination cfg hw st v id).1.vectorTable.getD v default).l32 &&&
      kRTLOMaskMask = kRTLOMaskMask ∧
    (setVectorPhysicalDestination cfg hw st v id).1.hwTrace = st.hwTrace ++
      [(v, maskedEntry (st.vectorTable.getD v default)),
        (v, { l32 := (st.vectorTable.getD v default).l32 ||| kRTLOMaskDisabled,
              h32 := (id <<< kRTHIDestinationShift) &&& kRTHIDestinationMask })] ∧
    ∀ p ∈ (setVectorPhysicalDestination cfg hw st v id).1.hwTrace, p ∉ st.hwTrace →
      p.2.l32 &&& kRTLOMaskMask = kRTLOMaskMask := by
  have hne : ¬(cfg.vectorCount ≤ v ∨ 255 < id) := by omega
  have hvl : v < st.vectorTable.length := by omega
  have hvl2 : ∀ e : VectorEntry, v < (st.vectorTable.set v e).length := fun e => by
    rw [List.length_set]
    omega
  have hEq : setVectorPhysicalDestination cfg hw st v id =
      ({ st with
          vectorTable :=
            (st.vectorTable.set v (maskedEntry (st.vectorTable.getD v default))).set v
              { l32 := (st.vectorTable.getD v default).l32 ||| kRTLOMaskDisabled,
                h32 := (id <<< kRTHIDestinationShift) &&& kRTHIDestinationMask },
          hwTrace := st.hwTrace ++
            [(v, maskedEntry (st.vectorTable.getD v default)),
              (v, { l32 := (st.vectorTable.getD v default).l32 ||| kRTLOMaskDisabled,
                    h32 := (id <<< kRTHIDestinationShift) &&& kRTHIDestinationMask })] },
        IOReturn.success) := by
    unfold setVectorPhysicalDestination disableVectorEntry writeVectorEntry
    rw [if_neg hne]
    dsimp only
    rw [getD_set_eq _ _ _ _ hvl]
    rw [getD_set_eq _ _ _ _ (hvl2 _), List.append_assoc]
    rfl
  have hgv : ((st.vectorTable.set v (maskedEntry (st.vectorTable.getD v default))).set v
      { l32 := (st.vectorTable.getD v default).l32 ||| kRTLOMaskDisabled,
        h32 := (id <<< kRTHIDestinationShift) &&& kRTHIDestinationMask }).getD v default =
      { l32 := (st.vectorTable.getD v default).l32 ||| kRTLOMaskDisabled,
        h32 := (id <<< kRTHIDestinationShift) &&& kRTHIDestinationMask } :=
    getD_set_eq _ _ _ _ (hvl2 _)
  rw [hEq]
  dsimp only
  rw [hgv]
  refine ⟨rfl, rfl, ?_, ?_, rfl, ?_⟩
  · rw [and_and_absorb _ _ _ (by decide)]
    exact destField_roundTrip id (by omega)
  · exact or_and_self _ _
  · intro p hp hnp
    rcases List.mem_append.mp hp with h | h
    · exact absurd h hnp
    · rcases List.mem_cons.mp h with h | h
      · rw [h]
        exact or_and_self _ _
      · rw [List.mem_singleton.mp h]
        exact or_and_self _ _

/-- Witness for C7 at a concrete state, index and destination. -/
theorem C7_setDestination_ok_witness :
    1 < sampleCfg.vectorCount ∧ 5 ≤ 255 ∧
    (allocSt 4).vectorTable.length = sampleCfg.vectorCount ∧
    ((setVectorPhysicalDestination sampleCfg hwOK (allocSt 4) 1 5).2 = IOReturn.success ∧
      (setVectorPhysicalDestination sampleCfg hwOK (allocSt 4) 1 5).1.vectorTable.getD 1
        default =
        { l32 := ((allocSt 4).vectorTable.getD 1 default).l32 ||| kRTLOMaskDisabled,
          h32 := (5 <<< kRTHIDestinationShift) &&& kRTHIDestinationMask } ∧
      (((setVectorPhysicalDestination sampleCfg hwOK (allocSt 4) 1 5).1.vectorTable.getD 1
          default).h32 &&& kRTHIDestinationMask) >>> kRTHIDestinationShift = 5 ∧
      ((setVectorPhysicalDestination sampleCfg hwOK (allocSt 4) 1 5).1.vectorTable.getD 1
        default).l32 &&& kRTLOMaskMask = kRTLOMaskMask ∧
      (setVectorPhysicalDestination sampleCfg hwOK (allocSt 4) 1 5).1.hwTrace =
        (allocSt 4).hwTrace ++
          [(1, maskedEntry ((allocSt 4).vectorTable.getD 1 default)),
            (1, { l32 := ((allocSt 4).vectorTable.getD 1 default).l32 ||| kRTLOMaskDisabled,
                  h32 := (5 <<< kRTHIDestinationShift) &&& kRTHIDestinationMask })] ∧
      ∀ p ∈ (setVectorPhysicalDestination sampleCfg hwOK (allocSt 4) 1 5).1.hwTrace,
        p ∉ (allocSt 4).hwTrace → p.2.l32 &&& kRTLOMaskMask = kRTLOMaskMask) :=
  ⟨by decide, by decide, by decide,
    C7_setDestination_ok sampleCfg hwOK (allocSt 4) 1 5 (by decide) (by decide) (by decide)⟩

/-- C8: an out-of-range index or an APIC ID above 255 makes
setVectorPhysicalDestination return the bad-argument code and leave the
state untouched: no table mutation and no hardware write occurs. -/
theorem C8_setDestination_badArgument (cfg : Cfg) (hw : Hw) (st : St) (v id : Nat)
    (h : cfg.vectorCount ≤ v ∨ 255 < id) :
    setVectorPhysicalDestination cfg hw st v id = (st, IOReturn.badArgument) := by
  unfold setVectorPhysicalDestination
  rw [if_pos h]

/-- Witness for C8 at destination ID 256. -/
theorem C8_setDestination_badArgument_witness :
    (sampleCfg.vectorCount ≤ 0 ∨ 255 < 256) ∧
    setVectorPhysicalDestination sampleCfg hwOK (allocSt 4) 0 256 =
      (allocSt 4, IOReturn.badArgument) :=
  ⟨Or.inr (by decide),
    C8_setDestination_badArgument sampleCfg hwOK (allocSt 4) 0 256 (Or.inr (by decide))⟩

/-- C9 counterexample: with an oracle on which exactly the first
per-entry write fails, resetVectorTable still returns success on a
two-entry table (the failure is overwritten by the result of the last
write), while both entries are written. -/
theorem C9_counterexample :
    hwFirstFails 0 = IOReturn.error ∧
    (resetVectorTable { sampleCfg with vectorCount := 2 } hwFirstFails (allocSt 2)).2 =
      IOReturn.success ∧
    (resetVectorTable { sampleCfg with vectorCount := 2 } hwFirstFails
      (allocSt 2)).1.hwTrace.length = 2 := by
  decide

/-- C9 (amended): resetVectorTable returns the result code of the last
executed per-entry write and continues through every entry regardless of
intermediate failures; a failure on a non-final entry does not stop the
loop but is not reflected in the returned result. -/
theorem C9_reset_reports_last_write (cfg : Cfg) (hw : Hw) (st : St)
    (hpos : 0 < cfg.vectorCount) (hlen : st.vectorTable.length = cfg.vectorCount) :
    (resetVectorTable cfg hw st).2 = hw (st.hwTrace.length + cfg.vectorCount - 1) ∧
    (resetVectorTable cfg hw st).1.hwTrace = st.hwTrace ++
      (List.range cfg.vectorCount).map fun j => (j, resetEntry cfg j) := by
  constructor
  · rw [resetVectorTable]
    exact resetAux_result cfg hw cfg.vectorCount 0 st IOReturn.error hpos
  · rw [resetVectorTable, List.range_eq_range']
    exact resetAux_trace cfg hw cfg.vectorCount 0 st IOReturn.error (by omega)

/-- Witness for the amended C9 at a concrete configuration and state. -/
theorem C9_reset_reports_last_write_witness :
    0 < sampleCfg.vectorCount ∧
    (allocSt 4).vectorTable.length = sampleCfg.vectorCount ∧
    ((resetVectorTable sampleCfg hwFirstFails (allocSt 4)).2 =
      hwFirstFails ((allocSt 4).hwTrace.length + sampleCfg.vectorCount - 1) ∧
    (resetVectorTable sampleCfg hwFirstFails (allocSt 4)).1.hwTrace =
      (allocSt 4).hwTrace ++
        (List.range sampleCfg.vectorCount).map fun j => (j, resetEntry sampleCfg j)) :=
  ⟨by decide, by decide,
    C9_reset_reports_last_write sampleCfg hwFirstFails (allocSt 4) (by decide) (by decide)⟩

/-- C10: prepareForSleep, resumeFromSleep and prepareForDeepIdle never
modify the stored vector table, and every redirection-entry write they
issue carries either the unmodified stored entry for that index or a
copy differing from it only in the mask bit. -/
theorem C10_power_ops_frame (cfg : Cfg) (hw : Hw) (st : St) (v : Nat)
    (hwf : ∀ e ∈ st.vectorTable, e.l32 < 2 ^ 32) :
    ((prepareForSleep cfg hw st).1.vectorTable = st.vectorTable ∧
      ∃ new, (prepareForSleep cfg hw st).1.hwTrace = st.hwTrace ++ new ∧
        ∀ p ∈ new, sameExceptMask p.2 (st.vectorTable.getD p.1 default)) ∧
    ((resumeFromSleep cfg hw st).1.vectorTable = st.vectorTable ∧
      ∃ new, (resumeFromSleep cfg hw st).1.hwTrace = st.hwTrace ++ new ∧
        ∀ p ∈ new, sameExceptMask p.2 (st.vectorTable.getD p.1 default)) ∧
    ((prepareForDeepIdle cfg hw st v).1.vectorTable = st.vectorTable ∧
      ∃ new, (prepareForDeepIdle cfg hw st v).1.hwTrace = st.hwTrace ++ new ∧
        ∀ p ∈ new, sameExceptMask p.2 (st.vectorTable.getD p.1 default)) := by
  have hp : ∀ i, (st.vectorTable.getD i default).l32 < 2 ^ 32 := by
    intro i
    by_cases hi : i < st.vectorTable.length
    · exact hwf _ (getD_mem _ _ _ hi)
    · rw [getD_of_length_le _ _ _ (by omega)]
      exact (by norm_num : (0 : Nat) < 2 ^ 32)
  have hmask : ∀ e : VectorEntry, sameExceptMask (maskedEntry e) e :=
    fun e => ⟨rfl, or_or_self _ _⟩
  have hself : ∀ e : VectorEntry, sameExceptMask e e := fun e => ⟨rfl, rfl⟩
  refine ⟨⟨prepareForSleep_table cfg hw st, ?_⟩,
    ⟨resumeFromSleep_table cfg hw st, ?_⟩, ⟨prepareForDeepIdle_table cfg hw st v, ?_⟩⟩
  · refine ⟨(List.range' 0 cfg.vectorCount).map
      (fun j => (j, maskedEntry (st.vectorTable.getD j default))), ?_, ?_⟩
    · rw [prepareForSleep, sleepAux_spec]
    · intro p hp2
      obtain ⟨j, hj, hpe⟩ := List.mem_map.mp hp2
      rw [← hpe]
      exact hmask _
  · refine ⟨((List.range' 0 cfg.vectorCount).map
      (fun j => [(j, maskedEntry (st.vectorTable.getD j default)),
        (j, st.vectorTable.getD j default)])).flatten, ?_, ?_⟩
    · rw [resumeFromSleep, resumeAux_spec]
    · intro p hp2
      obtain ⟨l, hl, hpl⟩ := List.mem_flatten.mp hp2
      obtain ⟨j, hj, hle⟩ := List.mem_map.mp hl
      rw [← hle] at hpl
      rcases List.mem_cons.mp hpl with h | h
      · rw [h]
        exact hmask _
      · rw [List.mem_singleton.mp h]
        exact hself _
  · unfold prepareForDeepIdle
    by_cases hc : st.tableAllocated ∧ v < cfg.vectorCount
    · rw [if_pos hc]
      refine ⟨[(v, { st.vectorTable.getD v default with
          l32 := (st.vectorTable.getD v default).l32 &&& compl32 kRTLOMaskMask })], rfl, ?_⟩
      intro p hp2
      rw [List.mem_singleton.mp hp2]
      exact ⟨rfl, and_compl32_or _ _ (hp v) (by decide)⟩
    · rw [if_neg hc]
      exact ⟨[], by rw [List.append_nil], by intro p hp2; cases hp2⟩

/-- Witness for C10 at a concrete configuration, state and index. -/
theorem C10_power_ops_frame_witness :
    (∀ e ∈ (allocSt 4).vectorTable, e.l32 < 2 ^ 32) ∧
    (((prepareForSleep sampleCfg hwOK (allocSt 4)).1.vectorTable = (allocSt 4).vectorTable ∧
      ∃ new, (prepareForSleep sampleCfg hwOK (allocSt 4)).1.hwTrace =
          (allocSt 4).hwTrace ++ new ∧
        ∀ p ∈ new, sameExceptMask p.2 ((allocSt 4).vectorTable.getD p.1 default)) ∧
    ((resumeFromSleep sampleCfg hwOK (allocSt 4)).1.vectorTable = (allocSt 4).vectorTable ∧
      ∃ new, (resumeFromSleep sampleCfg hwOK (allocSt 4)).1.hwTrace =
          (allocSt 4).hwTrace ++ new ∧
        ∀ p ∈ new, sameExceptMask p.2 ((allocSt 4).vectorTable.getD p.1 default)) ∧
    ((prepareForDeepIdle sampleCfg hwOK (allocSt 4) 2).1.vectorTable =
        (allocSt 4).vectorTable ∧
      ∃ new, (prepareForDeepIdle sampleCfg hwOK (allocSt 4) 2).1.hwTrace =
          (allocSt 4).hwTrace ++ new ∧
        ∀ p ∈ new, sameExceptMask p.2 ((allocSt 4).vectorTable.getD p.1 default))) :=
  ⟨by decide, C10_power_ops_frame sampleCfg hwOK (allocSt 4) 2 (by decide)⟩

end AppleAPIC
